import Mathlib

/-!
Shallow embedding of the Icinga 2 cluster communication layer
(remote/apiclient.cpp: ApiClient, SetLogPositionHandler,
RequestCertificateHandler) and of the feature-enable CLI command
(cli/featureenablecommand.cpp: FeatureEnableCommand::Run).

Numeric timestamps (C++ double) are embedded as Int: only their linear
order matters to the code under study.  Stateful C++ methods are embedded
as explicit state-passing functions.  Exceptions thrown by RPC handlers
are embedded as Except values; the dispatch boundary in ProcessMessage
catches them, which the embedding mirrors by pattern matching.
-/

namespace Icinga

/-- An Endpoint record from the Endpoint/Zone directory: name, owning zone,
and the two replication watermarks (remote/apiclient.cpp reads and writes
them through GetRemoteLogPosition / SetRemoteLogPosition /
GetLocalLogPosition / SetLocalLogPosition, which are plain accessors). -/
structure Endpoint where
  name : String
  zone : String
  remoteLogPosition : Int
  localLogPosition : Int
deriving DecidableEq, Repr

/-- The peer TLS certificate of a connection, as the certificate-request
handler consumes it: a public key and a subject name (X509_get_pubkey,
X509_get_subject_name), embedded abstractly as strings. -/
structure PeerCertificate where
  pubkey : String
  subject : String
deriving DecidableEq, Repr

/-- MessageOrigin: per-message metadata built by ApiClient::ProcessMessage.
FromClient is embedded by the pieces of the ApiClient that the handlers
actually read: its identity, its resolved Endpoint, and its stream's peer
certificate.  FromZone carries the resolved zone name, if any. -/
structure MessageOrigin where
  fromClientIdentity : String
  fromClientEndpoint : Option Endpoint
  fromClientPeerCert : PeerCertificate
  fromZone : Option String
deriving DecidableEq, Repr

/-- An inbound JSON-RPC message as ProcessMessage reads it: Dictionary
fields `method`, `params`, `id`, `ts`, `originZone`.  Optional fields are
Option; Dictionary::Contains is Option.isSome.  The params payload type is
a parameter, since dispatch passes it through opaquely. -/
structure Message (π : Type) where
  method : String
  params : Option π
  id : Option String
  ts : Option Int
  originZone : Option String

/-- The response dictionary that ProcessMessage builds (`resultMessage` in
the source): either a `result` or an `error` entry, plus `jsonrpc` and `id`
entries added when the inbound message carried an id. -/
structure ResponseMsg (α : Type) where
  jsonrpc : Option String
  id : Option String
  result : Option α
  error : Option String
deriving DecidableEq, Repr

/-- An RPC handler as stored in the ApiFunction registry: a function of
(origin, params) that either returns a value or throws, embedded as
Except String α (the String is the exception's diagnostic text). -/
def Handler (π α : Type) : Type :=
  MessageOrigin → Option π → Except String α

/-- The result of one ApiClient::ProcessMessage call on a decoded message:
the boolean return value, the endpoint state after the `ts` watermark
update, whether the message reached dispatch, the `resultMessage` built at
dispatch (none when the message was dropped as stale), the response
actually sent back (none when the message carried no id), and whether
m_Seen was refreshed. -/
structure ProcessResult (α : Type) where
  retval : Bool
  endpoint : Option Endpoint
  dispatched : Bool
  resultMessage : Option (ResponseMsg α)
  response : Option (ResponseMsg α)
  seenUpdated : Bool
deriving DecidableEq, Repr

/-- Dispatch (lines 177-188 of apiclient.cpp): look the method up in the
ApiFunction registry; a missing handler raises invalid_argument
"Function '<method>' does not exist.", and any exception from the lookup or
the handler is caught and stored under `error`, otherwise the handler's
value is stored under `result`.  DiagnosticInformation is embedded as the
exception's message itself. -/
def dispatch {π α : Type} (registry : String → Option (Handler π α))
    (origin : MessageOrigin) (msg : Message π) : ResponseMsg α :=
  let invoked : Except String α :=
    match registry msg.method with
    | none => Except.error ("Function '" ++ msg.method ++ "' does not exist.")
    | some afunc => afunc origin msg.params
  match invoked with
  | Except.ok v => { jsonrpc := none, id := none, result := some v, error := none }
  | Except.error e => { jsonrpc := none, id := none, result := none, error := some e }

/-- The tail of ApiClient::ProcessMessage after the freshness check
(lines 162-196): build the MessageOrigin (zone resolution per lines
165-170), dispatch, and, when the inbound message contains an `id`, send
back the result message extended with `jsonrpc` = "2.0" and the same id. -/
def processDispatch {π α : Type} (localZone identity : String)
    (peerCert : PeerCertificate) (registry : String → Option (Handler π α))
    (ep : Option Endpoint) (msg : Message π) (seen : Bool) : ProcessResult α :=
  let origin : MessageOrigin :=
    { fromClientIdentity := identity
      fromClientEndpoint := ep
      fromClientPeerCert := peerCert
      fromZone :=
        match ep with
        | some e => if e.zone ≠ localZone then some e.zone else msg.originZone
        | none => none }
  let rm := dispatch registry origin msg
  match msg.id with
  | some i =>
      let sent : ResponseMsg α := { rm with jsonrpc := some "2.0", id := some i }
      { retval := true, endpoint := ep, dispatched := true,
        resultMessage := some sent, response := some sent, seenUpdated := seen }
  | none =>
      { retval := true, endpoint := ep, dispatched := true,
        resultMessage := some rm, response := none, seenUpdated := seen }

/-- ApiClient::ProcessMessage on a successfully decoded message (lines
149-196).  m_Seen is refreshed unless the method is log::SetLogPosition.
If the client has a resolved Endpoint and the message contains `ts`:
a `ts` strictly below the endpoint's remoteLogPosition makes the call
return true without dispatching ("ignore old messages"); otherwise
remoteLogPosition is set to `ts` and dispatch proceeds. -/
def processMessage {π α : Type} (localZone identity : String)
    (peerCert : PeerCertificate) (registry : String → Option (Handler π α))
    (ep : Option Endpoint) (msg : Message π) : ProcessResult α :=
  let seen := msg.method ≠ "log::SetLogPosition"
  match ep, msg.ts with
  | some e, some ts =>
      if ts < e.remoteLogPosition then
        { retval := true, endpoint := some e, dispatched := false,
          resultMessage := none, response := none, seenUpdated := seen }
      else
        processDispatch localZone identity peerCert registry
          (some { e with remoteLogPosition := ts }) msg seen
  | some e, none => processDispatch localZone identity peerCert registry (some e) msg seen
  | none, _ => processDispatch localZone identity peerCert registry none msg seen

/-- The per-connection outbound state that ApiClient::SendMessage touches:
the write queue (a FIFO of queued messages) and whether a disconnect has
been initiated for the connection. -/
structure WriteQueueState (μ : Type) where
  writeQueue : List μ
  disconnectScheduled : Bool
deriving DecidableEq, Repr

/-- ApiClient::SendMessage (lines 73-83): if the write queue holds more
than 20000 entries, log a warning and initiate Disconnect, dropping the
message; otherwise enqueue the message. -/
def sendMessage {μ : Type} (st : WriteQueueState μ) (m : μ) : WriteQueueState μ :=
  if st.writeQueue.length > 20000 then
    { st with disconnectScheduled := true }
  else
    { st with writeQueue := st.writeQueue ++ [m] }

/-- The connection state that Disconnect/DisconnectSync manipulate:
whether the client is still held by its Endpoint (or the listener's
anonymous set), whether the TLS stream is open, how many DisconnectSync
callbacks have been queued and not yet run, and how many disconnect
warnings were logged. -/
structure ConnTeardownState where
  registeredWithEndpoint : Bool
  streamOpen : Bool
  pendingTeardowns : Nat
  warningsLogged : Nat
deriving DecidableEq, Repr

/-- ApiClient::Disconnect (lines 106-109): unconditionally queue one
asynchronous DisconnectSync callback.  The source contains no
already-closing check. -/
def disconnect (st : ConnTeardownState) : ConnTeardownState :=
  { st with pendingTeardowns := st.pendingTeardowns + 1 }

/-- ApiClient::DisconnectSync (lines 111-124): log a warning, deregister
the client from its Endpoint (or from the listener's anonymous set), and
close the stream. -/
def disconnectSync (st : ConnTeardownState) : ConnTeardownState :=
  { st with
      warningsLogged := st.warningsLogged + 1
      registeredWithEndpoint := false
      streamOpen := false
      pendingTeardowns := st.pendingTeardowns - 1 }

/-- The Value returned by handlers that yield no payload: Icinga's Empty. -/
inductive HVal where
  | empty
deriving DecidableEq, Repr

/-- Params of log::SetLogPosition.  Dictionary::Get of a missing
`log_position` key yields Empty, which converts to the number 0; the
embedding keeps the key optional and reads it with getD 0. -/
structure SetLogPositionParams where
  log_position : Option Int
deriving DecidableEq, Repr

/-- SetLogPositionHandler (lines 199-214): with null params or no resolved
Endpoint on the sending client, return Empty and change nothing; otherwise
raise the endpoint's localLogPosition to `log_position` only when strictly
greater.  The endpoint mutation is embedded by returning the endpoint
state after the call alongside the handler's (always Empty) value. -/
def setLogPositionHandler (origin : MessageOrigin)
    (params : Option SetLogPositionParams) : HVal × Option Endpoint :=
  match params with
  | none => (HVal.empty, origin.fromClientEndpoint)
  | some p =>
      let log_position := p.log_position.getD 0
      match origin.fromClientEndpoint with
      | none => (HVal.empty, none)
      | some endpoint =>
          if log_position > endpoint.localLogPosition then
            (HVal.empty, some { endpoint with localLogPosition := log_position })
          else
            (HVal.empty, some endpoint)

/-- Params of pki::RequestCertificate.  Dictionary::Get of a missing
`ticket` key yields Empty, which converts to the empty string. -/
structure RequestCertificateParams where
  ticket : Option String
deriving DecidableEq, Repr

/-- The result dictionary built by RequestCertificateHandler: at most the
keys `error`, `cert` and `ca`. -/
structure CertResult where
  error : Option String
  cert : Option String
  ca : Option String
deriving DecidableEq, Repr

/-- RequestCertificateHandler (lines 216-251).  A none return value is the
Empty the handler yields for null params.  The cryptographic primitives are
parameters of the embedding: pbkdf2 embeds PBKDF2_SHA1,
createCertIcingaCA embeds signing a certificate (as a string) over the
peer certificate's public key and subject, and caCertString embeds the
stringified CA certificate loaded from the CA directory.  The salt comes
from the listener's TicketSalt configuration. -/
def requestCertificateHandler
    (pbkdf2 : String → String → Nat → String)
    (createCertIcingaCA : String → String → String)
    (caCertString : String)
    (salt : String)
    (origin : MessageOrigin)
    (params : Option RequestCertificateParams) : Option CertResult :=
  match params with
  | none => none
  | some p =>
      if salt = "" then
        some { error := some "Ticket salt is not configured.", cert := none, ca := none }
      else
        let ticket := p.ticket.getD ""
        let realTicket := pbkdf2 origin.fromClientIdentity salt 50000
        if ticket ≠ realTicket then
          some { error := some "Invalid ticket.", cert := none, ca := none }
        else
          some { error := none
                 cert := some (createCertIcingaCA origin.fromClientPeerCert.pubkey
                   origin.fromClientPeerCert.subject)
                 ca := some caCertString }

/-! The feature-enable CLI command (cli/featureenablecommand.cpp).
The filesystem is embedded as the list of existing paths;
Utility::PathExists is list membership.  symlink(2) creates the target
path; failures of symlink other than through an existing target are
environmental, so they are embedded by an oracle linkFails telling for
which target paths the call fails. -/

/-- Path of a feature's file in the features-available directory. -/
def featureSource (availDir f : String) : String :=
  availDir ++ "/" ++ f ++ ".conf"

/-- Path of a feature's file in the features-enabled directory. -/
def featureTarget (enabledDir f : String) : String :=
  enabledDir ++ "/" ++ f ++ ".conf"

/-- State threaded through FeatureEnableCommand::Run's loop: the
filesystem, the `errors` vector of failed feature names, and the log
lines emitted so far. -/
structure FeatureState where
  fs : List String
  errors : List String
  logs : List String
deriving DecidableEq, Repr

/-- The BOOST_FOREACH loop of FeatureEnableCommand::Run (lines 99-135):
for each requested feature, a missing source file is a per-item error; an
already existing target logs "already enabled" and skips the link;
otherwise the link is attempted, adding the target path on success and
recording a per-item error on failure. -/
def enableLoop (availDir enabledDir : String) (linkFails : String → Bool) :
    List String → FeatureState → FeatureState
  | [], st => st
  | f :: rest, st =>
      let source := featureSource availDir f
      if source ∈ st.fs then
        let target := featureTarget enabledDir f
        if target ∈ st.fs then
          enableLoop availDir enabledDir linkFails rest
            { st with logs := st.logs ++ ["Feature '" ++ f ++ "' already enabled."] }
        else
          if linkFails target then
            enableLoop availDir enabledDir linkFails rest
              { st with errors := st.errors ++ [f]
                        logs := st.logs ++
                          ["Enabling feature '" ++ f ++ "' in '" ++ enabledDir ++ "'.",
                           "Cannot enable feature '" ++ f ++ "'. Linking failed."] }
          else
            enableLoop availDir enabledDir linkFails rest
              { st with fs := st.fs ++ [target]
                        logs := st.logs ++
                          ["Enabling feature '" ++ f ++ "' in '" ++ enabledDir ++ "'."] }
      else
        enableLoop availDir enabledDir linkFails rest
          { st with errors := st.errors ++ [f]
                    logs := st.logs ++ ["Cannot enable feature '" ++ f ++ "'. Source file '" ++
                      source ++ "' does not exist."] }

/-- The features-available directory under the sysconf dir. -/
def availablePath (sysconfDir : String) : String :=
  sysconfDir ++ "/icinga2/features-available"

/-- The features-enabled directory under the sysconf dir. -/
def enabledPath (sysconfDir : String) : String :=
  sysconfDir ++ "/icinga2/features-enabled"

/-- FeatureEnableCommand::Run (lines 77-144): resolve the two feature
directories under the sysconf dir; an empty argument vector or a missing
directory logs a critical message and returns 0; otherwise run the
per-feature loop and return 1 when the errors vector is nonempty, else 0. -/
def featureEnableRun (sysconfDir : String) (linkFails : String → Bool)
    (fs : List String) (ap : List String) : Nat × FeatureState :=
  let features_available_dir := availablePath sysconfDir
  let features_enabled_dir := enabledPath sysconfDir
  if ap = [] then
    (0, { fs := fs, errors := [],
          logs := ["Cannot enable feature(s). Name(s) are missing!"] })
  else if features_available_dir ∉ fs then
    (0, { fs := fs, errors := [],
          logs := ["Cannot parse available features. Path '" ++
            features_available_dir ++ "' does not exist."] })
  else if features_enabled_dir ∉ fs then
    (0, { fs := fs, errors := [],
          logs := ["Cannot enable features. Path '" ++
            features_enabled_dir ++ "' does not exist."] })
  else
    let st := enableLoop features_available_dir features_enabled_dir linkFails ap
      { fs := fs, errors := [], logs := [] }
    if st.errors ≠ [] then
      (1, { st with logs := st.logs ++
        ["Cannot enable feature(s): " ++ String.intercalate " " st.errors] })
    else
      (0, st)

/-- A requested feature fails, judged against the initial filesystem: its
source file does not exist, or its target does not yet exist and the link
call fails for it. -/
def featureItemFails (availDir enabledDir : String) (linkFails : String → Bool)
    (fs : List String) (f : String) : Bool :=
  !(featureSource availDir f ∈ fs) ||
    (!(featureTarget enabledDir f ∈ fs) && linkFails (featureTarget enabledDir f))

/-- The evolution of an Endpoint under one dispatched log::SetLogPosition
message carrying the given log_position: the endpoint state that
setLogPositionHandler leaves behind. -/
def applyLocal (e : Endpoint) (p : Int) : Endpoint :=
  ((setLogPositionHandler
      { fromClientIdentity := "", fromClientEndpoint := some e,
        fromClientPeerCert := { pubkey := "", subject := "" }, fromZone := none }
      (some { log_position := some p })).2).getD e

/-- The evolution of an Endpoint under one inbound message carrying the
given `ts`, through ApiClient::ProcessMessage's freshness path (with a
trivial registry, so dispatch itself has no endpoint effect). -/
def applyRemote (e : Endpoint) (ts : Int) : Endpoint :=
  ((processMessage (π := Unit) (α := HVal) "" ""
      { pubkey := "", subject := "" } (fun _ => none) (some e)
      { method := "", params := none, id := none, ts := some ts,
        originZone := none }).endpoint).getD e

/-! Theorems.  Helper lemmas come first, then one theorem per claim
(with a witness or counterexample where required). -/

/-- Dispatch always yields exactly one of `result` and `error`. -/
theorem dispatch_result_xor_error {π α : Type} (registry : String → Option (Handler π α))
    (origin : MessageOrigin) (msg : Message π) :
    ((dispatch registry origin msg).result.isSome ∧ (dispatch registry origin msg).error = none) ∨
    ((dispatch registry origin msg).result = none ∧ (dispatch registry origin msg).error.isSome) := by
  rcases hreg : registry msg.method with _ | afunc
  · simp [dispatch, hreg]
  · rcases hinv : afunc origin msg.params with v | e
    · simp [dispatch, hreg, hinv]
    · simp [dispatch, hreg, hinv]

/-- C4: SendMessage with more than 20000 queued messages logs, initiates
Disconnect and drops the message (queue unchanged); with the queue at or
below the mark it enqueues the message and initiates no disconnect. -/
theorem C4_sendMessage_backpressure {μ : Type} (st : WriteQueueState μ) (m : μ) :
    (st.writeQueue.length > 20000 →
      sendMessage st m = { st with disconnectScheduled := true }) ∧
    (st.writeQueue.length ≤ 20000 →
      sendMessage st m = { st with writeQueue := st.writeQueue ++ [m] }) := by
  constructor
  · intro h
    simp [sendMessage, if_pos h]
  · intro h
    have h2 : ¬ st.writeQueue.length > 20000 := by omega
    simp [sendMessage, if_neg h2]

/-- Witness for C4 at a queue of 20001 messages and at an empty queue. -/
theorem C4_sendMessage_backpressure_witness :
    ((List.replicate 20001 (0 : Nat)).length > 20000 ∧
      sendMessage ⟨List.replicate 20001 (0 : Nat), false⟩ 7 =
        ⟨List.replicate 20001 (0 : Nat), true⟩) ∧
    sendMessage (⟨[], false⟩ : WriteQueueState Nat) 7 = ⟨[7], false⟩ := by
  have hlen : (List.replicate 20001 (0 : Nat)).length > 20000 := by
    rw [List.length_replicate]
    norm_num
  refine ⟨⟨hlen, ?_⟩, ?_⟩
  · exact (C4_sendMessage_backpressure ⟨List.replicate 20001 (0 : Nat), false⟩ 7).1 hlen
  · exact (C4_sendMessage_backpressure (⟨[], false⟩ : WriteQueueState Nat) 7).2 (by simp)

/-- C3: RequestCertificateHandler with an unconfigured (empty) ticket salt
returns the dictionary whose only entry is error = "Ticket salt is not
configured.", whatever the params dictionary and the ticket it holds. -/
theorem C3_requestCertificate_salt_unconfigured
    (pbkdf2 : String → String → Nat → String)
    (createCertIcingaCA : String → String → String) (caCertString : String)
    (origin : MessageOrigin) (p : RequestCertificateParams) :
    requestCertificateHandler pbkdf2 createCertIcingaCA caCertString "" origin (some p) =
      some { error := some "Ticket salt is not configured.", cert := none, ca := none } := by
  simp [requestCertificateHandler]

/-- C2: with a configured salt, RequestCertificateHandler returns cert and
ca and no error exactly when the supplied ticket equals the PBKDF2 hash of
the client's identity and the salt at 50000 iterations; a differing ticket
yields only error = "Invalid ticket." and no certificate material. -/
theorem C2_requestCertificate_ticket
    (pbkdf2 : String → String → Nat → String)
    (createCertIcingaCA : String → String → String) (caCertString : String)
    (salt : String) (origin : MessageOrigin) (p : RequestCertificateParams)
    (hsalt : salt ≠ "") :
    (p.ticket.getD "" = pbkdf2 origin.fromClientIdentity salt 50000 →
      requestCertificateHandler pbkdf2 createCertIcingaCA caCertString salt origin (some p) =
        some { error := none
               cert := some (createCertIcingaCA origin.fromClientPeerCert.pubkey
                 origin.fromClientPeerCert.subject)
               ca := some caCertString }) ∧
    (p.ticket.getD "" ≠ pbkdf2 origin.fromClientIdentity salt 50000 →
      requestCertificateHandler pbkdf2 createCertIcingaCA caCertString salt origin (some p) =
        some { error := some "Invalid ticket.", cert := none, ca := none }) := by
  constructor
  · intro h
    have hc : ¬ (p.ticket.getD "" ≠ pbkdf2 origin.fromClientIdentity salt 50000) :=
      fun hne => hne h
    unfold requestCertificateHandler
    simp only [if_neg hsalt, if_neg hc]
  · intro h
    unfold requestCertificateHandler
    simp only [if_neg hsalt, if_pos h]

/-- Witness for C2: a concrete hash function, salt and identity, with the
matching and a mismatching ticket. -/
theorem C2_requestCertificate_ticket_witness :
    requestCertificateHandler (fun i s n => i ++ s ++ toString n) (fun pk su => pk ++ su)
        "CA" "mysalt"
        { fromClientIdentity := "node1"
          fromClientEndpoint := none
          fromClientPeerCert := { pubkey := "PK", subject := "SU" }
          fromZone := none }
        (some { ticket := some "node1mysalt50000" }) =
      some { error := none, cert := some "PKSU", ca := some "CA" } ∧
    requestCertificateHandler (fun i s n => i ++ s ++ toString n) (fun pk su => pk ++ su)
        "CA" "mysalt"
        { fromClientIdentity := "node1"
          fromClientEndpoint := none
          fromClientPeerCert := { pubkey := "PK", subject := "SU" }
          fromZone := none }
        (some { ticket := some "wrong" }) =
      some { error := some "Invalid ticket.", cert := none, ca := none } := by
  constructor
  · exact (C2_requestCertificate_ticket (fun i s n => i ++ s ++ toString n)
      (fun pk su => pk ++ su) "CA" "mysalt"
      { fromClientIdentity := "node1"
        fromClientEndpoint := none
        fromClientPeerCert := { pubkey := "PK", subject := "SU" }
        fromZone := none }
      { ticket := some "node1mysalt50000" } (by decide)).1 (by decide)
  · exact (C2_requestCertificate_ticket (fun i s n => i ++ s ++ toString n)
      (fun pk su => pk ++ su) "CA" "mysalt"
      { fromClientIdentity := "node1"
        fromClientEndpoint := none
        fromClientPeerCert := { pubkey := "PK", subject := "SU" }
        fromZone := none }
      { ticket := some "wrong" } (by decide)).2 (by decide)

/-- C10: with a null params dictionary, RequestCertificateHandler returns
Empty (no error, no certificate material) and SetLogPositionHandler
returns Empty and leaves the endpoint untouched; SetLogPositionHandler on
a connection with no resolved Endpoint likewise returns Empty and changes
no state. -/
theorem C10_null_params_empty
    (pbkdf2 : String → String → Nat → String)
    (createCertIcingaCA : String → String → String) (caCertString : String)
    (salt : String) (origin : MessageOrigin) (p : SetLogPositionParams) :
    requestCertificateHandler pbkdf2 createCertIcingaCA caCertString salt origin none = none ∧
    setLogPositionHandler origin none = (HVal.empty, origin.fromClientEndpoint) ∧
    (origin.fromClientEndpoint = none →
      setLogPositionHandler origin (some p) = (HVal.empty, none)) := by
  refine ⟨rfl, rfl, fun h => ?_⟩
  simp [setLogPositionHandler, h]

/-- Witness for C10 at a concrete anonymous origin. -/
theorem C10_null_params_empty_witness :
    setLogPositionHandler
        { fromClientIdentity := "anon", fromClientEndpoint := none,
          fromClientPeerCert := { pubkey := "", subject := "" }, fromZone := none }
        (some { log_position := some 7 }) = (HVal.empty, none) := by
  exact (C10_null_params_empty (fun _ _ _ => "") (fun _ _ => "") "" ""
    { fromClientIdentity := "anon", fromClientEndpoint := none,
      fromClientPeerCert := { pubkey := "", subject := "" }, fromZone := none }
    { log_position := some 7 }).2.2 rfl

/-- C8 counterexample: Disconnect carries no already-closing guard, so a
second call is not a no-op — it schedules a further teardown callback. -/
theorem C8_disconnect_counterexample :
    disconnect (disconnect ⟨true, true, 0, 0⟩) ≠ disconnect ⟨true, true, 0, 0⟩ := by
  decide

/-- C8 amended: every Disconnect call schedules one more teardown (no
guard, so repeated calls stack callbacks and each run logs again), but the
teardown itself is idempotent on connection state: after running it once
or twice the client is equally deregistered and its stream closed. -/
theorem C8_disconnect_effect_idempotent (s : ConnTeardownState) :
    (disconnectSync (disconnectSync s)).registeredWithEndpoint
        = (disconnectSync s).registeredWithEndpoint ∧
    (disconnectSync (disconnectSync s)).streamOpen = (disconnectSync s).streamOpen ∧
    (disconnect (disconnect s)).pendingTeardowns = s.pendingTeardowns + 2 ∧
    (disconnect s).pendingTeardowns = s.pendingTeardowns + 1 := by
  exact ⟨rfl, rfl, rfl, rfl⟩

/-- C1 counterexample: a message whose `ts` equals the sender Endpoint's
current remoteLogPosition is dispatched — the source drops only on a
strict comparison (`ts < remoteLogPosition`), so `ts` equal to the
watermark is not treated as stale, contradicting the claim's "less than or
equal". -/
theorem C1_ts_equal_dispatched_counterexample :
    (processMessage (π := Unit) (α := HVal) "z" "i" { pubkey := "p", subject := "s" }
      (fun _ => none)
      (some { name := "e", zone := "z", remoteLogPosition := 5, localLogPosition := 0 })
      { method := "m", params := none, id := none, ts := some 5,
        originZone := none }).dispatched = true := by
  decide

/-- C1 amended: with a known sender Endpoint and a numeric `ts`, a `ts`
strictly below remoteLogPosition makes ProcessMessage return true with no
dispatch and the endpoint unchanged; a `ts` greater than or equal to
remoteLogPosition sets remoteLogPosition to `ts` before dispatch and the
message is dispatched. -/
theorem C1_freshness_check {π α : Type} (localZone identity : String)
    (pc : PeerCertificate) (registry : String → Option (Handler π α)) (e : Endpoint)
    (method : String) (params : Option π) (idf : Option String) (ts : Int)
    (oz : Option String) :
    (ts < e.remoteLogPosition →
      processMessage localZone identity pc registry (some e)
          { method := method, params := params, id := idf, ts := some ts, originZone := oz } =
        { retval := true, endpoint := some e, dispatched := false, resultMessage := none,
          response := none, seenUpdated := method ≠ "log::SetLogPosition" }) ∧
    (e.remoteLogPosition ≤ ts →
      (processMessage localZone identity pc registry (some e)
          { method := method, params := params, id := idf, ts := some ts,
            originZone := oz }).dispatched = true ∧
      (processMessage localZone identity pc registry (some e)
          { method := method, params := params, id := idf, ts := some ts,
            originZone := oz }).endpoint = some { e with remoteLogPosition := ts } ∧
      (processMessage localZone identity pc registry (some e)
          { method := method, params := params, id := idf, ts := some ts,
            originZone := oz }).retval = true) := by
  constructor
  · intro h
    simp [processMessage, if_pos h]
  · intro h
    have h2 : ¬ ts < e.remoteLogPosition := not_lt.mpr h
    cases idf with
    | none => simp [processMessage, if_neg h2, processDispatch]
    | some i => simp [processMessage, if_neg h2, processDispatch]

/-- Witness for C1's amended statement: a stale message (ts 3 against
watermark 5) is not dispatched; a fresh one (ts 7) is dispatched and
advances the watermark. -/
theorem C1_freshness_check_witness :
    (processMessage (π := Unit) (α := HVal) "z" "i" { pubkey := "p", subject := "s" }
        (fun _ => none)
        (some { name := "e", zone := "z", remoteLogPosition := 5, localLogPosition := 0 })
        { method := "m", params := none, id := none, ts := some 3,
          originZone := none }).dispatched = false ∧
    (processMessage (π := Unit) (α := HVal) "z" "i" { pubkey := "p", subject := "s" }
        (fun _ => none)
        (some { name := "e", zone := "z", remoteLogPosition := 5, localLogPosition := 0 })
        { method := "m", params := none, id := none, ts := some 7,
          originZone := none }).endpoint =
      some { name := "e", zone := "z", remoteLogPosition := 7, localLogPosition := 0 } := by
  constructor
  · rw [(C1_freshness_check (π := Unit) (α := HVal) "z" "i" { pubkey := "p", subject := "s" }
      (fun _ => none)
      { name := "e", zone := "z", remoteLogPosition := 5, localLogPosition := 0 }
      "m" none none 3 none).1 (by decide)]
  · exact ((C1_freshness_check (π := Unit) (α := HVal) "z" "i" { pubkey := "p", subject := "s" }
      (fun _ => none)
      { name := "e", zone := "z", remoteLogPosition := 5, localLogPosition := 0 }
      "m" none none 7 none).2 (by decide)).2.1

/-- C5: a message that passes the freshness check and carries an `id` gets
exactly one response, carrying the same id, the marker jsonrpc = "2.0",
and exactly one of `result`/`error`; a message without an `id` gets no
response. -/
theorem C5_response_correlation {π α : Type} (localZone identity : String)
    (pc : PeerCertificate) (registry : String → Option (Handler π α))
    (ep : Option Endpoint) (meth : String) (pars : Option π) (mid : Option String)
    (mts : Option Int) (moz : Option String)
    (hfresh : ∀ e ts, ep = some e → mts = some ts → ¬ ts < e.remoteLogPosition) :
    (∀ i, mid = some i →
      ∃ r, (processMessage localZone identity pc registry ep
          { method := meth, params := pars, id := mid, ts := mts,
            originZone := moz }).response = some r ∧
        r.id = some i ∧ r.jsonrpc = some "2.0" ∧
        ((r.result.isSome ∧ r.error = none) ∨ (r.result = none ∧ r.error.isSome))) ∧
    (mid = none →
      (processMessage localZone identity pc registry ep
          { method := meth, params := pars, id := mid, ts := mts,
            originZone := moz }).response = none) := by
  constructor
  · intro i hi
    subst hi
    rcases ep with _ | e
    · rcases mts with _ | ts
      · exact ⟨_, rfl, rfl, rfl, dispatch_result_xor_error registry _ _⟩
      · exact ⟨_, rfl, rfl, rfl, dispatch_result_xor_error registry _ _⟩
    · rcases mts with _ | ts
      · exact ⟨_, rfl, rfl, rfl, dispatch_result_xor_error registry _ _⟩
      · have h2 : ¬ ts < e.remoteLogPosition := hfresh e ts rfl rfl
        simp only [processMessage]
        rw [if_neg h2]
        exact ⟨_, rfl, rfl, rfl, dispatch_result_xor_error registry _ _⟩
  · intro hi
    subst hi
    rcases ep with _ | e
    · rcases mts with _ | ts
      · rfl
      · rfl
    · rcases mts with _ | ts
      · rfl
      · simp only [processMessage]
        split
        · rfl
        · rfl

/-- Witness for C5: a concrete message with an id, against an empty
registry, receives one response with the same id, the version marker, and
an error (no result). -/
theorem C5_response_correlation_witness :
    (∃ r, (processMessage (π := Unit) (α := HVal) "z" "i" { pubkey := "p", subject := "s" }
        (fun _ => none) none
        { method := "m", params := none, id := some "42", ts := none,
          originZone := none }).response = some r ∧
      r.id = some "42" ∧ r.jsonrpc = some "2.0" ∧
      ((r.result.isSome ∧ r.error = none) ∨ (r.result = none ∧ r.error.isSome))) := by
  exact (C5_response_correlation (π := Unit) (α := HVal) "z" "i"
    { pubkey := "p", subject := "s" } (fun _ => none) none
    "m" none (some "42") none none
    (fun e ts he _ => Option.noConfusion he)).1 "42" rfl

/-- C6: a message whose method has no registered handler is answered with
error = "Function '<method>' does not exist." (dispatch, being a total
function into ResponseMsg, lets no exception escape toward the read-loop),
and an exception raised by a found handler is caught and becomes the
response's error field. -/
theorem C6_dispatch_error_conversion {π α : Type}
    (registry : String → Option (Handler π α)) (origin : MessageOrigin) (msg : Message π) :
    (registry msg.method = none →
      dispatch registry origin msg =
        { jsonrpc := none, id := none, result := none,
          error := some ("Function '" ++ msg.method ++ "' does not exist.") }) ∧
    (∀ (afunc : Handler π α) (e : String),
      registry msg.method = some afunc → afunc origin msg.params = Except.error e →
      dispatch registry origin msg =
        { jsonrpc := none, id := none, result := none, error := some e }) := by
  constructor
  · intro h
    simp [dispatch, h]
  · intro afunc e hreg hinv
    simp [dispatch, hreg, hinv]

/-- Witness for C6: the empty registry answers a concrete message with the
missing-function error, and a registry whose sole handler throws gets its
exception text converted into the error field. -/
theorem C6_dispatch_error_conversion_witness :
    dispatch (π := Unit) (α := HVal) (fun _ => none)
        { fromClientIdentity := "i", fromClientEndpoint := none,
          fromClientPeerCert := { pubkey := "p", subject := "s" }, fromZone := none }
        { method := "nosuch", params := none, id := none, ts := none, originZone := none } =
      { jsonrpc := none, id := none, result := none,
        error := some ("Function 'nosuch' does not exist.") } ∧
    dispatch (π := Unit) (α := HVal) (fun _ => some (fun _ _ => Except.error "boom"))
        { fromClientIdentity := "i", fromClientEndpoint := none,
          fromClientPeerCert := { pubkey := "p", subject := "s" }, fromZone := none }
        { method := "m", params := none, id := none, ts := none, originZone := none } =
      { jsonrpc := none, id := none, result := none, error := some "boom" } := by
  constructor
  · exact (C6_dispatch_error_conversion (π := Unit) (α := HVal) (fun _ => none)
      { fromClientIdentity := "i", fromClientEndpoint := none,
        fromClientPeerCert := { pubkey := "p", subject := "s" }, fromZone := none }
      { method := "nosuch", params := none, id := none, ts := none,
        originZone := none }).1 rfl
  · exact (C6_dispatch_error_conversion (π := Unit) (α := HVal)
      (fun _ => some (fun _ _ => Except.error "boom"))
      { fromClientIdentity := "i", fromClientEndpoint := none,
        fromClientPeerCert := { pubkey := "p", subject := "s" }, fromZone := none }
      { method := "m", params := none, id := none, ts := none, originZone := none }).2
      (fun _ _ => Except.error "boom") "boom" rfl rfl

/-- One dispatched SetLogPosition step is exactly a max with the stored
localLogPosition. -/
theorem applyLocal_eq (e : Endpoint) (p : Int) :
    applyLocal e p = { e with localLogPosition := max e.localLogPosition p } := by
  cases e with
  | mk name zone rpos lpos =>
      simp only [applyLocal, setLogPositionHandler, Option.getD]
      rcases le_or_lt p lpos with h | h
      · rw [if_neg (not_lt.mpr h)]
        simp [max_eq_left h]
      · rw [if_pos h]
        simp [max_eq_right h.le]

/-- One inbound-`ts` step through ProcessMessage is exactly a max with the
stored remoteLogPosition. -/
theorem applyRemote_eq (e : Endpoint) (ts : Int) :
    applyRemote e ts = { e with remoteLogPosition := max e.remoteLogPosition ts } := by
  cases e with
  | mk name zone rpos lpos =>
      simp only [applyRemote, processMessage, processDispatch]
      rcases lt_or_le ts rpos with h | h
      · rw [if_pos h]
        simp [max_eq_left h.le]
      · rw [if_neg (not_lt.mpr h)]
        simp [max_eq_right h]

/-- Folding dispatched SetLogPosition messages computes the running max of
localLogPosition. -/
theorem foldl_applyLocal (e : Endpoint) (l : List Int) :
    (l.foldl applyLocal e).localLogPosition = l.foldl max e.localLogPosition := by
  induction l generalizing e with
  | nil => rfl
  | cons x xs ih =>
      simp only [List.foldl_cons]
      rw [ih (applyLocal e x), applyLocal_eq]

/-- Folding inbound `ts` messages computes the running max of
remoteLogPosition. -/
theorem foldl_applyRemote (e : Endpoint) (l : List Int) :
    (l.foldl applyRemote e).remoteLogPosition = l.foldl max e.remoteLogPosition := by
  induction l generalizing e with
  | nil => rfl
  | cons x xs ih =>
      simp only [List.foldl_cons]
      rw [ih (applyRemote e x), applyRemote_eq]

/-- C7: a log-position update whose timestamp is not greater than the
stored value leaves the endpoint unchanged with no error (the handler's
value is always Empty), on both the localLogPosition path (SetLogPosition
handler) and the remoteLogPosition path (inbound `ts`); consequently after
any sequence of updates the stored value is the running maximum of the
initial value and the timestamps processed. -/
theorem C7_log_position_running_max (e : Endpoint) (l : List Int) :
    (∀ p, p ≤ e.localLogPosition → applyLocal e p = e) ∧
    (∀ ts, ts ≤ e.remoteLogPosition → applyRemote e ts = e) ∧
    (∀ origin params, (setLogPositionHandler origin params).1 = HVal.empty) ∧
    (l.foldl applyLocal e).localLogPosition = l.foldl max e.localLogPosition ∧
    (l.foldl applyRemote e).remoteLogPosition = l.foldl max e.remoteLogPosition := by
  refine ⟨fun p h => ?_, fun ts h => ?_, fun origin params => ?_,
    foldl_applyLocal e l, foldl_applyRemote e l⟩
  · rw [applyLocal_eq, max_eq_left h]
  · rw [applyRemote_eq, max_eq_left h]
  · rcases params with _ | p
    · rfl
    · rcases origin with ⟨oi, oe, oc, oz⟩
      rcases oe with _ | e2
      · rfl
      · simp only [setLogPositionHandler]

/-- Witness for C7: a stale local update (3 against 5) is a no-op, and a
concrete update sequence leaves the maximum 9. -/
theorem C7_log_position_running_max_witness :
    applyLocal { name := "e", zone := "z", remoteLogPosition := 5, localLogPosition := 5 } 3
        = { name := "e", zone := "z", remoteLogPosition := 5, localLogPosition := 5 } ∧
    (([4, 9, 2] : List Int).foldl applyLocal
        { name := "e", zone := "z", remoteLogPosition := 5,
          localLogPosition := 5 }).localLogPosition = 9 := by
  constructor
  · exact (C7_log_position_running_max
      { name := "e", zone := "z", remoteLogPosition := 5, localLogPosition := 5 } []).1 3
      (by decide)
  · rw [(C7_log_position_running_max
      { name := "e", zone := "z", remoteLogPosition := 5, localLogPosition := 5 }
      [4, 9, 2]).2.2.2.1]
    decide

/-- Characterization of the feature-enable loop's error accumulation: as
long as source paths of requested features can never collide with target
paths (so that links created by earlier iterations cannot create a later
feature's source), the features recorded in `errors` are exactly the
requested features that fail judged against the initial filesystem. -/
theorem enableLoop_errors_spec (availDir enabledDir : String) (linkFails : String → Bool)
    (fs0 : List String) (apAll : List String)
    (hdisj : ∀ f ∈ apAll, ∀ g ∈ apAll,
      featureSource availDir f ≠ featureTarget enabledDir g) :
    ∀ (ap : List String) (st : FeatureState),
      (∀ f ∈ ap, f ∈ apAll) →
      fs0 ⊆ st.fs →
      (∀ x ∈ st.fs, x ∉ fs0 →
        linkFails x = false ∧ ∃ g ∈ apAll, x = featureTarget enabledDir g) →
      (enableLoop availDir enabledDir linkFails ap st).errors
        = st.errors ++ ap.filter
            (fun f => featureItemFails availDir enabledDir linkFails fs0 f) := by
  intro ap
  induction ap with
  | nil =>
      intro st _ _ _
      simp [enableLoop]
  | cons f rest ih =>
      intro st hap hsub hinv
      have hf : f ∈ apAll := hap f (List.mem_cons_self f rest)
      have hrest : ∀ g ∈ rest, g ∈ apAll := fun g hg => hap g (List.mem_cons_of_mem f hg)
      by_cases hsrc : featureSource availDir f ∈ st.fs
      · have hsrc0 : featureSource availDir f ∈ fs0 := by
          by_contra hns
          obtain ⟨_, g, hg, hx⟩ := hinv _ hsrc hns
          exact hdisj f hf g hg hx
        by_cases htgt : featureTarget enabledDir f ∈ st.fs
        · have hfail : featureItemFails availDir enabledDir linkFails fs0 f = false := by
            by_cases htgt0 : featureTarget enabledDir f ∈ fs0
            · simp [featureItemFails, hsrc0, htgt0]
            · obtain ⟨hlf, _⟩ := hinv _ htgt htgt0
              simp [featureItemFails, hsrc0, hlf]
          rw [enableLoop, if_pos hsrc, if_pos htgt,
            ih { st with logs := st.logs ++ ["Feature '" ++ f ++ "' already enabled."] }
              hrest hsub hinv]
          simp [List.filter_cons, hfail]
        · have htgt0 : featureTarget enabledDir f ∉ fs0 := fun h => htgt (hsub h)
          cases hlf : linkFails (featureTarget enabledDir f) with
          | true =>
              have hfail : featureItemFails availDir enabledDir linkFails fs0 f = true := by
                simp [featureItemFails, htgt0, hlf]
              rw [enableLoop, if_pos hsrc, if_neg htgt, if_pos hlf,
                ih { st with errors := st.errors ++ [f]
                             logs := st.logs ++
                               ["Enabling feature '" ++ f ++ "' in '" ++ enabledDir ++ "'.",
                                "Cannot enable feature '" ++ f ++ "'. Linking failed."] }
                  hrest hsub hinv]
              simp [List.filter_cons, hfail]
          | false =>
              have hfail : featureItemFails availDir enabledDir linkFails fs0 f = false := by
                simp [featureItemFails, hsrc0, hlf]
              have hsub2 : fs0 ⊆ st.fs ++ [featureTarget enabledDir f] :=
                fun x hx => List.mem_append_left _ (hsub hx)
              have hinv2 : ∀ x ∈ st.fs ++ [featureTarget enabledDir f], x ∉ fs0 →
                  linkFails x = false ∧ ∃ g ∈ apAll, x = featureTarget enabledDir g := by
                intro x hx hnx
                rcases List.mem_append.mp hx with hx | hx
                · exact hinv x hx hnx
                · rcases List.mem_singleton.mp hx with rfl
                  exact ⟨hlf, f, hf, rfl⟩
              rw [enableLoop, if_pos hsrc, if_neg htgt,
                if_neg (by simp [hlf]),
                ih { st with fs := st.fs ++ [featureTarget enabledDir f]
                             logs := st.logs ++
                               ["Enabling feature '" ++ f ++ "' in '" ++ enabledDir ++ "'."] }
                  hrest hsub2 hinv2]
              simp [List.filter_cons, hfail]
      · have hsrc0 : featureSource availDir f ∉ fs0 := fun h => hsrc (hsub h)
        have hfail : featureItemFails availDir enabledDir linkFails fs0 f = true := by
          simp [featureItemFails, hsrc0]
        rw [enableLoop, if_neg hsrc,
          ih { st with errors := st.errors ++ [f]
                       logs := st.logs ++ ["Cannot enable feature '" ++ f ++
                         "'. Source file '" ++ featureSource availDir f ++
                         "' does not exist."] }
            hrest hsub hinv]
        simp [List.filter_cons, hfail]

/-- C9: with both feature directories present, enabling a feature whose
available file exists and which is not yet enabled links it and exits 0;
enabling it again exits 0, logs the already-enabled notice and attempts no
second link (filesystem unchanged); enabling a feature with no available
file exits 1; and in general (when requested sources cannot collide with
targets) the exit code is 1 exactly when at least one requested item
failed. -/
theorem C9_feature_enable_cli (sysconfDir : String) (linkFails : String → Bool)
    (fs : List String) (foo : String) (ap : List String)
    (had : availablePath sysconfDir ∈ fs) (hed : enabledPath sysconfDir ∈ fs) :
    (featureSource (availablePath sysconfDir) foo ∈ fs →
      featureTarget (enabledPath sysconfDir) foo ∉ fs →
      linkFails (featureTarget (enabledPath sysconfDir) foo) = false →
      (featureEnableRun sysconfDir linkFails fs [foo]).1 = 0 ∧
      featureTarget (enabledPath sysconfDir) foo ∈
        (featureEnableRun sysconfDir linkFails fs [foo]).2.fs) ∧
    (featureSource (availablePath sysconfDir) foo ∈ fs →
      featureTarget (enabledPath sysconfDir) foo ∈ fs →
      (featureEnableRun sysconfDir linkFails fs [foo]).1 = 0 ∧
      ("Feature '" ++ foo ++ "' already enabled.") ∈
        (featureEnableRun sysconfDir linkFails fs [foo]).2.logs ∧
      (featureEnableRun sysconfDir linkFails fs [foo]).2.fs = fs) ∧
    (featureSource (availablePath sysconfDir) foo ∉ fs →
      (featureEnableRun sysconfDir linkFails fs [foo]).1 = 1) ∧
    ((∀ f ∈ ap, ∀ g ∈ ap, featureSource (availablePath sysconfDir) f ≠
        featureTarget (enabledPath sysconfDir) g) →
      ((featureEnableRun sysconfDir linkFails fs ap).1 = 1 ↔
        ∃ f ∈ ap, featureItemFails (availablePath sysconfDir) (enabledPath sysconfDir)
          linkFails fs f = true)) := by
  refine ⟨fun hsrc htgt hlf => ?_, fun hsrc htgt => ?_, fun hsrc => ?_, fun hdisj => ?_⟩
  · simp [featureEnableRun, enableLoop, had, hed, hsrc, htgt, hlf]
  · simp [featureEnableRun, enableLoop, had, hed, hsrc, htgt]
  · simp [featureEnableRun, enableLoop, had, hed, hsrc]
  · have hloop := enableLoop_errors_spec (availablePath sysconfDir) (enabledPath sysconfDir)
      linkFails fs ap hdisj ap { fs := fs, errors := [], logs := [] }
      (fun f hf => hf) (fun x hx => hx) (fun x hx hnx => absurd hx hnx)
    cases ap with
    | nil => simp [featureEnableRun]
    | cons a ap2 =>
        have hrun : (featureEnableRun sysconfDir linkFails fs (a :: ap2)).1 = 1 ↔
            (a :: ap2).filter (fun f => featureItemFails (availablePath sysconfDir)
              (enabledPath sysconfDir) linkFails fs f) ≠ [] := by
          simp only [featureEnableRun]
          rw [if_neg (by simp : ¬ (a :: ap2 = ([] : List String))),
            if_neg (not_not_intro had), if_neg (not_not_intro hed)]
          by_cases hfil : (a :: ap2).filter (fun f => featureItemFails (availablePath sysconfDir)
              (enabledPath sysconfDir) linkFails fs f) = []
          · rw [if_neg (by simp [hloop, hfil])]
            simp [hfil]
          · rw [if_pos (by simp [hloop, hfil])]
            simp [hfil]
        rw [hrun, Ne, List.filter_eq_nil_iff]
        push_neg
        simp

/-- Witness for C9: a concrete filesystem holding both directories and the
available file foo.conf; enabling foo succeeds with exit code 0 and
creates the enabled entry. -/
theorem C9_feature_enable_cli_witness :
    (featureEnableRun "/etc" (fun _ => false)
        ["/etc/icinga2/features-available", "/etc/icinga2/features-enabled",
         "/etc/icinga2/features-available/foo.conf"] ["foo"]).1 = 0 ∧
    "/etc/icinga2/features-enabled/foo.conf" ∈
      (featureEnableRun "/etc" (fun _ => false)
        ["/etc/icinga2/features-available", "/etc/icinga2/features-enabled",
         "/etc/icinga2/features-available/foo.conf"] ["foo"]).2.fs := by
  exact (C9_feature_enable_cli "/etc" (fun _ => false)
    ["/etc/icinga2/features-available", "/etc/icinga2/features-enabled",
     "/etc/icinga2/features-available/foo.conf"] "foo" ["foo"]
    (by decide) (by decide)).1 (by decide) (by decide) rfl

end Icinga
